import Mathlib

/-!
Verification of the cylindrical-fiber ray tracer.

The development shallowly embeds the ray-tracing engine: the ray state
(azimuth, zenith/latitude, position), the analytic ray/cylinder
intersection, the mirror-reflection law, the inward surface normal of the
cylindrical fiber, and the stepwise trajectory loop with its three
termination reasons.  Real-number semantics stands in for the
floating-point arithmetic of the original (so the square root of a
negative discriminant is the junk value 0 where the original produces
NaN, and division by zero is the junk value 0 where the original produces
inf or NaN).  The two uniform random draws a diffusion step makes are
injected as explicit sequences so that the loop is a pure function, and
the printed diagnostics controlled by the output flag are omitted: they
do not affect the returned data.
-/

open Real

/-- Three-dimensional vector with named coordinates, standing for the
three-element arrays of the original. -/
@[ext]
structure Vec3 where
  x : ℝ
  y : ℝ
  z : ℝ

/-- Dot product of two 3-vectors. -/
def dot3 (a b : Vec3) : ℝ := a.x * b.x + a.y * b.y + a.z * b.z

/-- Scalar multiple of a 3-vector. -/
def smul3 (c : ℝ) (a : Vec3) : Vec3 := ⟨c * a.x, c * a.y, c * a.z⟩

/-- Componentwise sum of two 3-vectors. -/
def add3 (a b : Vec3) : Vec3 := ⟨a.x + b.x, a.y + b.y, a.z + b.z⟩

/-- Componentwise difference of two 3-vectors. -/
def sub3 (a b : Vec3) : Vec3 := ⟨a.x - b.x, a.y - b.y, a.z - b.z⟩

/-- Euclidean norm of a 3-vector. -/
noncomputable def norm3 (a : Vec3) : ℝ := Real.sqrt (a.x ^ 2 + a.y ^ 2 + a.z ^ 2)

/-- Ray state of the tracer: azimuth angle, zenith (latitude) angle and
current position.  Every mutation of the original re-derives the cached
direction vector from the two angles, so the vector is represented by the
derived function named rayVector below rather than stored. -/
structure Ray where
  azimut : ℝ
  latitude : ℝ
  startpoint : Vec3

/-- Direction vector derived from azimuth and zenith, exactly as the
constructor and every setter of the original compute it. -/
noncomputable def rayVector (azimut latitude : ℝ) : Vec3 :=
  ⟨Real.sin latitude * Real.cos azimut,
   Real.sin latitude * Real.sin azimut,
   Real.cos latitude⟩

/-- Inverse mapping from a direction vector to the pair
(azimuth, zenith): zenith is the arccosine of the axial component; when
that zenith is exactly zero the pair (0, 0) is returned; otherwise the
azimuth sign is resolved through the sine of the transverse projection. -/
noncomputable def calculate_angles_from_vector (v : Vec3) : ℝ × ℝ :=
  let latitude := Real.arccos v.z
  if latitude = 0 then (0, 0)
  else
    let nrm := Real.sqrt (v.x ^ 2 + v.y ^ 2)
    let c := v.x / nrm
    let s := v.y / nrm
    if s > 0 then (Real.arccos c, latitude) else (-Real.arccos c, latitude)

/-- Analytic intersection of the ray's line with the radius
core_radius cylinder about the z-axis: the degenerate zenith-zero case
returns the current transverse coordinates with the sentinel axial value
-1; otherwise the larger root of the transverse circle-line quadratic is
taken and the axial coordinate is extended through the cotangent of the
zenith angle. -/
noncomputable def calculate_intersection (r : Ray) (core_radius : ℝ) : Vec3 :=
  if r.latitude = 0 then ⟨r.startpoint.x, r.startpoint.y, -1⟩
  else
    let x0 := r.startpoint.x
    let y0 := r.startpoint.y
    let z0 := r.startpoint.z
    let phi := r.azimut
    let alpha := r.latitude
    let R := core_radius
    let gamma := Real.cos phi * x0 + Real.sin phi * y0
    ⟨x0 + Real.cos phi * (-gamma + Real.sqrt (gamma ^ 2 - x0 ^ 2 - y0 ^ 2 + R ^ 2)),
     y0 + Real.sin phi * (-gamma + Real.sqrt (gamma ^ 2 - x0 ^ 2 - y0 ^ 2 + R ^ 2)),
     z0 + Real.cos alpha / Real.sin alpha *
       (-gamma + Real.sqrt (gamma ^ 2 - x0 ^ 2 - y0 ^ 2 + R ^ 2))⟩

/-- Mirror image of the incident vector v about the plane orthogonal to
the normal n, written exactly as the original forms it: minus two times
the projection of v onto n, plus v. -/
def reflected_vector (v n : Vec3) : Vec3 :=
  add3 (smul3 (-2) (smul3 (dot3 n v) n)) v

/-- Reflection law of the tracer: the incidence dot product of the
normal with the current direction vector, the mirror-reflected vector,
and the reflected direction re-expressed as an (azimuth, zenith) pair.
The returned triple is (azimuth, zenith, incidence dot product); the
point argument is unused, as in the original. -/
noncomputable def calculate_reflection (r : Ray) (point normal : Vec3) : ℝ × ℝ × ℝ :=
  let angle := dot3 normal (rayVector r.azimut r.latitude)
  let rv := reflected_vector (rayVector r.azimut r.latitude) normal
  ((calculate_angles_from_vector rv).1, (calculate_angles_from_vector rv).2, angle)

/-- Cylindrical fiber: core and cladding radii, core and cladding
refractive indices, maximum axial length, and the optional diffusion
angle (none models the Python None). -/
structure Fiber_cylinder where
  core_r : ℝ
  clad_r : ℝ
  core_n : ℝ
  clad_n : ℝ
  z_max : ℝ
  diffusion : Option ℝ

/-- Inward unit normal of the cylinder at a boundary point: the negated
transverse coordinates divided by the transverse distance (the axial
component of the original is the negation of the literal zero divided by
the same distance). -/
noncomputable def find_normal (p : Vec3) : Vec3 :=
  ⟨-p.x / Real.sqrt (p.x ^ 2 + p.y ^ 2),
   -p.y / Real.sqrt (p.x ^ 2 + p.y ^ 2),
   -0 / Real.sqrt (p.x ^ 2 + p.y ^ 2)⟩

/-- Truthiness of the diffusion field, matching the Python condition:
None and 0.0 are falsy, every other value is truthy. -/
noncomputable def diffusionTruthy : Option ℝ → Bool
  | none => false
  | some d => if d = 0 then false else true

/-- Termination reason of a trajectory, standing for the three strings
the original returns. -/
inductive Reason where
  | z_max
  | reflection_angle
  | max_reflections
deriving DecidableEq

/-- Point-wise update of an array modelled as a function from indices;
writeAt a i v is the array a with index i overwritten by v. -/
def writeAt (a : ℕ → Vec3) (i : ℕ) (v : Vec3) : ℕ → Vec3 :=
  fun j => if j = i then v else a j

/-- Result of a trajectory computation: the reflection-point array, the
parallel (azimuth, zenith, incidence) array as recorded in radians (the
original converts a copy to degrees on return), the populated count, the
termination reason, and the list of indices written into the two arrays
(most recent first), which records the array accesses the original
performs. -/
structure TrajResult where
  dots : ℕ → Vec3
  angles : ℕ → Vec3
  count : ℕ
  reason : Reason
  written : List ℕ

/-- Body of the trajectory loop, recursing on the number of remaining
iterations: intersect, clip-and-stop past the maximum length, otherwise
reflect, optionally perturb by the injected diffusion draws, record, test
the critical angle when elimination is enabled, and continue with the
updated ray state. -/
noncomputable def trajectoryLoop (fiber : Fiber_cylinder) (angle_elimination : Bool)
    (pertAz pertLat : ℕ → ℝ) (max_reflection : ℕ) :
    ℕ → ℕ → Ray → ℝ → (ℕ → Vec3) → (ℕ → Vec3) → List ℕ → TrajResult
  | 0, _, _, _, dots, angles, acc =>
      ⟨dots, angles, max_reflection, Reason.max_reflections, acc⟩
  | fuel + 1, i, r, refl, dots, angles, acc =>
      let P := calculate_intersection r fiber.core_r
      if P.z > fiber.z_max then
        let v := rayVector r.azimut r.latitude
        let final := sub3 P (smul3 (P.z - fiber.z_max) ⟨v.x / v.z, v.y / v.z, v.z / v.z⟩)
        ⟨writeAt dots i final, writeAt angles i ⟨r.azimut, r.latitude, |refl|⟩,
         i + 1, Reason.z_max, i :: acc⟩
      else
        let nrm := find_normal P
        let t := calculate_reflection r P nrm
        let az := if diffusionTruthy fiber.diffusion then t.1 + pertAz i else t.1
        let lat := if diffusionTruthy fiber.diffusion then t.2.1 + pertLat i else t.2.1
        let dots' := writeAt dots i P
        let angles' := writeAt angles i ⟨az, lat, |t.2.2|⟩
        if angle_elimination ∧
            π / 2 - |t.2.2| < Real.arcsin (fiber.clad_n / fiber.core_n) then
          ⟨dots', angles', i + 1, Reason.reflection_angle, i :: acc⟩
        else
          trajectoryLoop fiber angle_elimination pertAz pertLat max_reflection
            fuel (i + 1) ⟨az, lat, P⟩ t.2.2 dots' angles' (i :: acc)

/-- Trajectory of a ray through a cylindrical fiber: the start point and
initial angles occupy index 0 unconditionally, then the loop runs for the
indices 1 to max_reflection - 1. -/
noncomputable def calculate_trajectory (fiber : Fiber_cylinder) (r : Ray)
    (max_reflection : ℕ) (angle_elimination : Bool) (pertAz pertLat : ℕ → ℝ) :
    TrajResult :=
  let zeroArr : ℕ → Vec3 := fun _ => ⟨0, 0, 0⟩
  trajectoryLoop fiber angle_elimination pertAz pertLat max_reflection
    (max_reflection - 1) 1 r r.latitude
    (writeAt zeroArr 0 r.startpoint)
    (writeAt zeroArr 0 ⟨r.azimut, r.latitude, 0⟩)
    [0]

/-- Degree image of a recorded angle triple: the original applies the
radian-to-degree conversion to the angle array it returns. -/
noncomputable def rad2degVec (a : Vec3) : Vec3 :=
  ⟨a.x * (180 / π), a.y * (180 / π), a.z * (180 / π)⟩

/-- C9: with zenith exactly zero the intersection routine returns the
ray's current transverse coordinates with the sentinel axial value -1. -/
theorem intersection_axial_sentinel (r : Ray) (core_radius : ℝ)
    (h : r.latitude = 0) :
    calculate_intersection r core_radius = ⟨r.startpoint.x, r.startpoint.y, -1⟩ := by
  unfold calculate_intersection
  rw [if_pos h]

theorem intersection_axial_sentinel_witness :
    calculate_intersection ⟨0, 0, ⟨5, 7, 2⟩⟩ 3 = ⟨5, 7, -1⟩ :=
  intersection_axial_sentinel ⟨0, 0, ⟨5, 7, 2⟩⟩ 3 rfl

/-- C8: for a unit incident vector and a unit normal, the mirror-reflected
vector computed by the reflection law has the same norm as the incident
vector. -/
theorem reflection_preserves_norm (v n : Vec3)
    (hv : norm3 v = 1) (hn : norm3 n = 1) :
    norm3 (reflected_vector v n) = norm3 v := by
  have hn2 : n.x ^ 2 + n.y ^ 2 + n.z ^ 2 = 1 := by
    have h := hn
    unfold norm3 at h
    exact Real.sqrt_eq_one.mp h
  unfold norm3 reflected_vector add3 smul3 dot3
  congr 1
  dsimp only
  linear_combination (4 * (n.x * v.x + n.y * v.y + n.z * v.z) ^ 2) * hn2

theorem reflection_preserves_norm_witness :
    norm3 (reflected_vector ⟨0, 0, 1⟩ ⟨1, 0, 0⟩) = norm3 ⟨0, 0, 1⟩ :=
  reflection_preserves_norm ⟨0, 0, 1⟩ ⟨1, 0, 0⟩
    (by unfold norm3; norm_num)
    (by unfold norm3; norm_num)

/-- C6: at a ray state whose intersection discriminant is negative (the
ray does not reach the boundary), the intersection routine still returns
a coordinate triple instead of surfacing an error -- here the junk value
produced by the real square root of the negative discriminant, where the
floating-point original silently produces NaN coordinates.  The returned
point is the unchanged start point, whose transverse radius squared is 4,
not on the radius-1 boundary. -/
theorem negative_discriminant_no_error_run :
    calculate_intersection ⟨π / 2, π / 4, ⟨2, 0, 0⟩⟩ 1 = ⟨2, 0, 0⟩ ∧
      (2 : ℝ) ^ 2 + (0 : ℝ) ^ 2 ≠ 1 ^ 2 := by
  constructor
  · unfold calculate_intersection
    rw [if_neg (by positivity : (⟨π / 2, π / 4, ⟨2, 0, 0⟩⟩ : Ray).latitude ≠ 0)]
    have hγ : Real.cos (π / 2) * 2 + Real.sin (π / 2) * 0 = 0 := by
      rw [Real.cos_pi_div_two, Real.sin_pi_div_two]; ring
    have hs : Real.sqrt ((0:ℝ) ^ 2 - 2 ^ 2 - 0 ^ 2 + 1 ^ 2) = 0 :=
      Real.sqrt_eq_zero'.mpr (by norm_num)
    dsimp only
    rw [hγ]
    rw [hs]
    ext <;> dsimp only <;> ring
  · norm_num

/-- Discriminant of the transverse circle-line quadratic, written with
gamma expanded. -/
noncomputable def interDisc (x0 y0 R phi : ℝ) : ℝ :=
  (Real.cos phi * x0 + Real.sin phi * y0) ^ 2 - x0 ^ 2 - y0 ^ 2 + R ^ 2

/-- With the start point strictly inside the radius-R circle the
discriminant is strictly positive. -/
lemma interDisc_pos (x0 y0 R phi : ℝ) (hin : x0 ^ 2 + y0 ^ 2 < R ^ 2) :
    0 < interDisc x0 y0 R phi := by
  unfold interDisc
  nlinarith [sq_nonneg (Real.cos phi * x0 + Real.sin phi * y0)]

/-- The distance term of the larger quadratic root is strictly positive
when the start point lies strictly inside the circle. -/
lemma interStep_pos (x0 y0 R phi : ℝ) (hin : x0 ^ 2 + y0 ^ 2 < R ^ 2) :
    0 < -(Real.cos phi * x0 + Real.sin phi * y0) +
        Real.sqrt (interDisc x0 y0 R phi) := by
  set g := Real.cos phi * x0 + Real.sin phi * y0 with hg
  have habs : |g| < Real.sqrt (interDisc x0 y0 R phi) := by
    rw [Real.lt_sqrt (abs_nonneg g), sq_abs]
    unfold interDisc
    rw [← hg]
    linarith
  have := le_abs_self g
  linarith

/-- The transverse part of the intersection point lies exactly on the
radius-R circle when the zenith is nonzero and the start point is
strictly inside. -/
lemma inter_circle (r : Ray) (R : ℝ) (hlat : r.latitude ≠ 0)
    (hin : r.startpoint.x ^ 2 + r.startpoint.y ^ 2 < R ^ 2) :
    (calculate_intersection r R).x ^ 2 + (calculate_intersection r R).y ^ 2 = R ^ 2 := by
  unfold calculate_intersection
  rw [if_neg hlat]
  dsimp only
  set x0 := r.startpoint.x
  set y0 := r.startpoint.y
  set g := Real.cos r.azimut * x0 + Real.sin r.azimut * y0 with hg
  have harg : (0:ℝ) ≤ g ^ 2 - x0 ^ 2 - y0 ^ 2 + R ^ 2 := by nlinarith [sq_nonneg g]
  have hs : Real.sqrt (g ^ 2 - x0 ^ 2 - y0 ^ 2 + R ^ 2) ^ 2 =
      g ^ 2 - x0 ^ 2 - y0 ^ 2 + R ^ 2 := Real.sq_sqrt harg
  have hpyth : Real.sin r.azimut ^ 2 + Real.cos r.azimut ^ 2 = 1 :=
    Real.sin_sq_add_cos_sq r.azimut
  set s := Real.sqrt (g ^ 2 - x0 ^ 2 - y0 ^ 2 + R ^ 2)
  linear_combination ((-g + s) ^ 2) * hpyth + hs

/-- Transverse projection of the intersection point onto the direction's
azimuth: it equals the square root of the discriminant. -/
lemma inter_dot (r : Ray) (R : ℝ) (hlat : r.latitude ≠ 0) :
    (calculate_intersection r R).x * Real.cos r.azimut +
      (calculate_intersection r R).y * Real.sin r.azimut =
      Real.sqrt (interDisc r.startpoint.x r.startpoint.y R r.azimut) := by
  unfold calculate_intersection interDisc
  rw [if_neg hlat]
  dsimp only
  have hpyth : Real.sin r.azimut ^ 2 + Real.cos r.azimut ^ 2 = 1 :=
    Real.sin_sq_add_cos_sq r.azimut
  set x0 := r.startpoint.x
  set y0 := r.startpoint.y
  set s := Real.sqrt ((Real.cos r.azimut * x0 + Real.sin r.azimut * y0) ^ 2
    - x0 ^ 2 - y0 ^ 2 + R ^ 2)
  linear_combination (-(Real.cos r.azimut * x0 + Real.sin r.azimut * y0) + s) * hpyth

/-- C1: for a zenith angle strictly between 0 and half pi and a start
point strictly inside the radius-R circle, the intersection point lies
exactly on that circle and equals the start point plus a strictly
positive multiple of the ray's direction vector. -/
theorem intersection_on_boundary_forward (r : Ray) (R : ℝ)
    (h0 : 0 < r.latitude) (h2 : r.latitude < π / 2)
    (hin : r.startpoint.x ^ 2 + r.startpoint.y ^ 2 < R ^ 2) :
    (calculate_intersection r R).x ^ 2 + (calculate_intersection r R).y ^ 2 = R ^ 2 ∧
      ∃ t : ℝ, 0 < t ∧
        calculate_intersection r R =
          add3 r.startpoint (smul3 t (rayVector r.azimut r.latitude)) := by
  have hlat : r.latitude ≠ 0 := ne_of_gt h0
  refine ⟨inter_circle r R hlat hin, ?_⟩
  have hsin : 0 < Real.sin r.latitude :=
    Real.sin_pos_of_pos_of_lt_pi h0 (by linarith [Real.pi_pos])
  have hd : 0 < -(Real.cos r.azimut * r.startpoint.x + Real.sin r.azimut * r.startpoint.y) +
      Real.sqrt (interDisc r.startpoint.x r.startpoint.y R r.azimut) :=
    interStep_pos _ _ _ _ hin
  refine ⟨(-(Real.cos r.azimut * r.startpoint.x + Real.sin r.azimut * r.startpoint.y) +
      Real.sqrt (interDisc r.startpoint.x r.startpoint.y R r.azimut)) / Real.sin r.latitude,
    div_pos hd hsin, ?_⟩
  unfold calculate_intersection interDisc rayVector add3 smul3
  rw [if_neg hlat]
  have hsne : Real.sin r.latitude ≠ 0 := ne_of_gt hsin
  ext <;> dsimp only <;> field_simp <;> ring

theorem intersection_on_boundary_forward_witness :
    (calculate_intersection ⟨0, π / 4, ⟨0, 0, 0⟩⟩ 1).x ^ 2 +
        (calculate_intersection ⟨0, π / 4, ⟨0, 0, 0⟩⟩ 1).y ^ 2 = 1 ^ 2 ∧
      ∃ t : ℝ, 0 < t ∧
        calculate_intersection ⟨0, π / 4, ⟨0, 0, 0⟩⟩ 1 =
          add3 (⟨0, 0, 0⟩ : Vec3) (smul3 t (rayVector 0 (π / 4))) :=
  intersection_on_boundary_forward ⟨0, π / 4, ⟨0, 0, 0⟩⟩ 1
    (by positivity) (by have := Real.pi_pos; dsimp only; linarith) (by norm_num)

/-- C7 (amended): for an azimuth strictly between -pi and pi and a zenith
strictly between 0 and half pi, the angle recovery applied to the derived
direction vector returns exactly the pair (azimuth, zenith); and at the
zenith-zero singularity it returns the pair (0, 0). -/
theorem angles_roundtrip (az lat : ℝ) (h1 : -π < az) (h2 : az < π)
    (h3 : 0 < lat) (h4 : lat < π / 2) :
    calculate_angles_from_vector (rayVector az lat) = (az, lat) ∧
      calculate_angles_from_vector (rayVector az 0) = (0, 0) := by
  constructor
  · unfold calculate_angles_from_vector rayVector
    dsimp only
    have hlat : Real.arccos (Real.cos lat) = lat :=
      Real.arccos_cos (le_of_lt h3) (by linarith [Real.pi_pos])
    rw [hlat, if_neg (ne_of_gt h3)]
    have hsin : 0 < Real.sin lat :=
      Real.sin_pos_of_pos_of_lt_pi h3 (by linarith [Real.pi_pos])
    have hsq : (Real.sin lat * Real.cos az) ^ 2 + (Real.sin lat * Real.sin az) ^ 2 =
        Real.sin lat ^ 2 := by
      linear_combination (Real.sin lat ^ 2) * Real.sin_sq_add_cos_sq az
    rw [hsq, Real.sqrt_sq (le_of_lt hsin)]
    have hsne : Real.sin lat ≠ 0 := ne_of_gt hsin
    rw [mul_div_cancel_left₀ _ hsne, mul_div_cancel_left₀ _ hsne]
    by_cases hsaz : Real.sin az > 0
    · rw [if_pos hsaz]
      have haz0 : 0 ≤ az := by
        by_contra hneg
        push_neg at hneg
        have := Real.sin_nonpos_of_nonnpos_of_neg_pi_le (le_of_lt hneg) (le_of_lt h1)
        linarith
      rw [Real.arccos_cos haz0 (le_of_lt h2)]
    · rw [if_neg hsaz]
      push_neg at hsaz
      have haz0 : az ≤ 0 := by
        by_contra hpos
        push_neg at hpos
        have := Real.sin_pos_of_pos_of_lt_pi hpos h2
        linarith
      have hcn : Real.cos az = Real.cos (-az) := (Real.cos_neg az).symm
      rw [hcn, Real.arccos_cos (by linarith) (by linarith)]
      norm_num
  · unfold calculate_angles_from_vector rayVector
    dsimp only
    rw [Real.sin_zero, Real.cos_zero, Real.arccos_one]
    rw [if_pos rfl]

/-- C7 counterexample: at azimuth exactly pi the recovery applied to the
derived direction vector returns azimuth -pi, not pi, so the round trip
fails at the stated quantification over every azimuth. -/
theorem angles_roundtrip_pi_counterexample :
    calculate_angles_from_vector (rayVector π (π / 3)) ≠ (π, π / 3) := by
  have hval : calculate_angles_from_vector (rayVector π (π / 3)) = (-π, π / 3) := by
    unfold calculate_angles_from_vector rayVector
    dsimp only
    rw [Real.cos_pi_div_three, Real.sin_pi_div_three, Real.cos_pi, Real.sin_pi]
    have harc : Real.arccos (1 / 2) = π / 3 := by
      rw [← Real.cos_pi_div_three]
      exact Real.arccos_cos (by positivity) (by linarith [Real.pi_pos])
    rw [harc, if_neg (by positivity : π / 3 ≠ 0)]
    have hsq : (Real.sqrt 3 / 2 * -1) ^ 2 + (Real.sqrt 3 / 2 * 0) ^ 2 =
        (Real.sqrt 3 / 2) ^ 2 := by ring
    rw [hsq, Real.sqrt_sq (by positivity)]
    have h32 : Real.sqrt 3 / 2 ≠ 0 := by positivity
    have hc : Real.sqrt 3 / 2 * -1 / (Real.sqrt 3 / 2) = -1 := by
      field_simp
      ring
    have hz : Real.sqrt 3 / 2 * 0 / (Real.sqrt 3 / 2) = 0 := by
      rw [mul_zero, zero_div]
    rw [hc, hz, if_neg (by norm_num), Real.arccos_neg_one]
  rw [hval]
  intro hcontra
  have : -π = π := congrArg Prod.fst hcontra
  have := Real.pi_pos
  linarith

theorem angles_roundtrip_witness :
    calculate_angles_from_vector (rayVector 0 (π / 3)) = (0, π / 3) ∧
      calculate_angles_from_vector (rayVector 0 0) = (0, 0) :=
  angles_roundtrip 0 (π / 3) (by linarith [Real.pi_pos]) Real.pi_pos
    (by positivity) (by linarith [Real.pi_pos])

/-- Identically zero perturbation stream, used when diffusion is off. -/
def zeroPert : ℕ → ℝ := fun _ => 0

/-- One unfolding of the trajectory loop in the clip-past-maximum-length
branch: when the intersection's axial coordinate exceeds the maximum
length, the loop records the clipped point and the carried incidence
angle at the current index and stops with the maximum-length reason. -/
lemma trajectoryLoop_zmax_step (fiber : Fiber_cylinder) (ae : Bool)
    (pa pl : ℕ → ℝ) (maxr fuel i : ℕ) (r : Ray) (refl : ℝ)
    (dots angles : ℕ → Vec3) (acc : List ℕ)
    (hz : (calculate_intersection r fiber.core_r).z > fiber.z_max) :
    trajectoryLoop fiber ae pa pl maxr (fuel + 1) i r refl dots angles acc =
      ⟨writeAt dots i (sub3 (calculate_intersection r fiber.core_r)
          (smul3 ((calculate_intersection r fiber.core_r).z - fiber.z_max)
            ⟨(rayVector r.azimut r.latitude).x / (rayVector r.azimut r.latitude).z,
             (rayVector r.azimut r.latitude).y / (rayVector r.azimut r.latitude).z,
             (rayVector r.azimut r.latitude).z / (rayVector r.azimut r.latitude).z⟩)),
       writeAt angles i ⟨r.azimut, r.latitude, |refl|⟩,
       i + 1, Reason.z_max, i :: acc⟩ := by
  simp only [trajectoryLoop]
  rw [if_pos hz]

/-- C2 (amended): whenever the intersection computed at loop index i has
axial coordinate strictly greater than the maximum length and the current
direction has nonzero axial component, the loop records the intersection
clipped along the current direction to axial coordinate exactly the
maximum length, records the entry's incidence angle as the absolute value
of the carried previous incidence angle, and stops with the
maximum-length reason and count i + 1. -/
theorem trajectory_zmax_clip (fiber : Fiber_cylinder) (ae : Bool)
    (pa pl : ℕ → ℝ) (maxr fuel i : ℕ) (r : Ray) (refl : ℝ)
    (dots angles : ℕ → Vec3) (acc : List ℕ)
    (hz : (calculate_intersection r fiber.core_r).z > fiber.z_max)
    (hcos : Real.cos r.latitude ≠ 0) :
    (trajectoryLoop fiber ae pa pl maxr (fuel + 1) i r refl dots angles acc).reason =
        Reason.z_max ∧
      (trajectoryLoop fiber ae pa pl maxr (fuel + 1) i r refl dots angles acc).count =
        i + 1 ∧
      ((trajectoryLoop fiber ae pa pl maxr (fuel + 1) i r refl dots angles acc).dots i).z =
        fiber.z_max ∧
      (trajectoryLoop fiber ae pa pl maxr (fuel + 1) i r refl dots angles acc).angles i =
        ⟨r.azimut, r.latitude, |refl|⟩ := by
  rw [trajectoryLoop_zmax_step fiber ae pa pl maxr fuel i r refl dots angles acc hz]
  refine ⟨rfl, rfl, ?_, ?_⟩
  · simp only [writeAt, if_true, eq_self_iff_true, sub3, smul3, rayVector]
    field_simp
  · simp only [writeAt, if_true, eq_self_iff_true]

/-- Evaluation of the intersection for the axially started ray with
zenith half pi used in the clipping counterexample. -/
lemma intersection_run_half_pi :
    calculate_intersection ⟨0, π / 2, ⟨0, 0, 2⟩⟩ 1 = ⟨1, 0, 2⟩ := by
  unfold calculate_intersection
  rw [if_neg (by positivity : ((⟨0, π / 2, ⟨0, 0, 2⟩⟩ : Ray)).latitude ≠ 0)]
  dsimp only
  rw [Real.cos_zero, Real.sin_zero, Real.cos_pi_div_two, Real.sin_pi_div_two]
  have hs : Real.sqrt (((1:ℝ) * 0 + 0 * 0) ^ 2 - 0 ^ 2 - 0 ^ 2 + 1 ^ 2) = 1 := by
    norm_num
  rw [hs]
  ext <;> dsimp only <;> norm_num

/-- Evaluation of the intersection for the centered ray with zenith a
quarter pi used in the forward-root witnesses. -/
lemma intersection_run_quarter_pi :
    calculate_intersection ⟨0, π / 4, ⟨0, 0, 0⟩⟩ 1 = ⟨1, 0, 1⟩ := by
  unfold calculate_intersection
  rw [if_neg (by positivity : ((⟨0, π / 4, ⟨0, 0, 0⟩⟩ : Ray)).latitude ≠ 0)]
  dsimp only
  rw [Real.cos_zero, Real.sin_zero, Real.cos_pi_div_four, Real.sin_pi_div_four]
  have hs : Real.sqrt (((1:ℝ) * 0 + 0 * 0) ^ 2 - 0 ^ 2 - 0 ^ 2 + 1 ^ 2) = 1 := by
    norm_num
  rw [hs]
  have h22 : Real.sqrt 2 / 2 ≠ 0 := by positivity
  ext <;> dsimp only <;> norm_num [div_self h22]

/-- C2 counterexample: a first-step ray with zenith exactly half pi (axial
direction component zero) whose intersection lies past the maximum length
1 takes the clipping branch, yet the recorded final point keeps axial
coordinate 2, not the maximum length: the clip divides by the zero axial
component, so the claimed exact equality with the maximum length fails. -/
theorem trajectory_zmax_clip_counterexample :
    (calculate_trajectory ⟨1, 1, 2, 1, 1, none⟩ ⟨0, π / 2, ⟨0, 0, 2⟩⟩ 3 false
        zeroPert zeroPert).reason = Reason.z_max ∧
      ((calculate_trajectory ⟨1, 1, 2, 1, 1, none⟩ ⟨0, π / 2, ⟨0, 0, 2⟩⟩ 3 false
        zeroPert zeroPert).dots 1).z ≠ (1 : ℝ) := by
  have hz : (calculate_intersection ⟨0, π / 2, ⟨0, 0, 2⟩⟩
      (⟨1, 1, 2, 1, 1, none⟩ : Fiber_cylinder).core_r).z >
      (⟨1, 1, 2, 1, 1, none⟩ : Fiber_cylinder).z_max := by
    rw [show (⟨1, 1, 2, 1, 1, none⟩ : Fiber_cylinder).core_r = 1 from rfl,
      intersection_run_half_pi]
    norm_num
  have hrun := trajectoryLoop_zmax_step ⟨1, 1, 2, 1, 1, none⟩ false zeroPert zeroPert
    3 1 1 ⟨0, π / 2, ⟨0, 0, 2⟩⟩ (π / 2)
    (writeAt (fun _ => ⟨0, 0, 0⟩) 0 (⟨0, 0, 2⟩ : Vec3))
    (writeAt (fun _ => ⟨0, 0, 0⟩) 0 (⟨0, π / 2, 0⟩ : Vec3)) [0] hz
  have hcalc : calculate_trajectory ⟨1, 1, 2, 1, 1, none⟩ ⟨0, π / 2, ⟨0, 0, 2⟩⟩ 3 false
      zeroPert zeroPert =
      trajectoryLoop ⟨1, 1, 2, 1, 1, none⟩ false zeroPert zeroPert 3 (1 + 1) 1
        ⟨0, π / 2, ⟨0, 0, 2⟩⟩ (π / 2)
        (writeAt (fun _ => ⟨0, 0, 0⟩) 0 (⟨0, 0, 2⟩ : Vec3))
        (writeAt (fun _ => ⟨0, 0, 0⟩) 0 (⟨0, π / 2, 0⟩ : Vec3)) [0] := rfl
  rw [hcalc, hrun]
  refine ⟨rfl, ?_⟩
  simp only [writeAt, if_true, eq_self_iff_true, sub3, smul3, rayVector,
    intersection_run_half_pi]
  norm_num [Real.cos_pi_div_two]

theorem trajectory_zmax_clip_witness :
    (trajectoryLoop ⟨1, 1, 2, 1, 1 / 2, none⟩ true zeroPert zeroPert 5 (0 + 1) 1
        ⟨0, π / 4, ⟨0, 0, 0⟩⟩ (π / 4) (fun _ => ⟨0, 0, 0⟩) (fun _ => ⟨0, 0, 0⟩)
        []).reason = Reason.z_max ∧
      (trajectoryLoop ⟨1, 1, 2, 1, 1 / 2, none⟩ true zeroPert zeroPert 5 (0 + 1) 1
        ⟨0, π / 4, ⟨0, 0, 0⟩⟩ (π / 4) (fun _ => ⟨0, 0, 0⟩) (fun _ => ⟨0, 0, 0⟩)
        []).count = 1 + 1 ∧
      ((trajectoryLoop ⟨1, 1, 2, 1, 1 / 2, none⟩ true zeroPert zeroPert 5 (0 + 1) 1
        ⟨0, π / 4, ⟨0, 0, 0⟩⟩ (π / 4) (fun _ => ⟨0, 0, 0⟩) (fun _ => ⟨0, 0, 0⟩)
        []).dots 1).z = (⟨1, 1, 2, 1, 1 / 2, none⟩ : Fiber_cylinder).z_max ∧
      (trajectoryLoop ⟨1, 1, 2, 1, 1 / 2, none⟩ true zeroPert zeroPert 5 (0 + 1) 1
        ⟨0, π / 4, ⟨0, 0, 0⟩⟩ (π / 4) (fun _ => ⟨0, 0, 0⟩) (fun _ => ⟨0, 0, 0⟩)
        []).angles 1 = ⟨0, π / 4, |π / 4|⟩ :=
  trajectory_zmax_clip ⟨1, 1, 2, 1, 1 / 2, none⟩ true zeroPert zeroPert 5 0 1
    ⟨0, π / 4, ⟨0, 0, 0⟩⟩ (π / 4) (fun _ => ⟨0, 0, 0⟩) (fun _ => ⟨0, 0, 0⟩) []
    (by rw [show (⟨1, 1, 2, 1, 1 / 2, none⟩ : Fiber_cylinder).core_r = 1 from rfl,
          intersection_run_quarter_pi]
        norm_num)
    (by rw [show (⟨0, π / 4, ⟨0, 0, 0⟩⟩ : Ray).latitude = π / 4 from rfl,
          Real.cos_pi_div_four]
        positivity)

/-- The incidence dot product of the inward cylinder normal with an
oblique ray's direction at the computed intersection point is strictly
negative when the ray starts strictly inside the core. -/
lemma incidence_dot_neg (r : Ray) (R : ℝ) (h0 : 0 < r.latitude)
    (h2 : r.latitude < π / 2) (hR : 0 < R)
    (hin : r.startpoint.x ^ 2 + r.startpoint.y ^ 2 < R ^ 2) :
    dot3 (find_normal (calculate_intersection r R)) (rayVector r.azimut r.latitude) < 0 := by
  have hlat : r.latitude ≠ 0 := ne_of_gt h0
  have hcirc := inter_circle r R hlat hin
  have hnrm : Real.sqrt ((calculate_intersection r R).x ^ 2 +
      (calculate_intersection r R).y ^ 2) = R := by
    rw [hcirc]
    exact Real.sqrt_sq hR.le
  have hdotval := inter_dot r R hlat
  have hspos : 0 < Real.sqrt (interDisc r.startpoint.x r.startpoint.y R r.azimut) :=
    Real.sqrt_pos.mpr (interDisc_pos _ _ _ _ hin)
  have hsin : 0 < Real.sin r.latitude :=
    Real.sin_pos_of_pos_of_lt_pi h0 (by linarith [Real.pi_pos])
  unfold find_normal dot3 rayVector
  dsimp only
  rw [hnrm]
  have hform : -(calculate_intersection r R).x / R *
        (Real.sin r.latitude * Real.cos r.azimut) +
      -(calculate_intersection r R).y / R *
        (Real.sin r.latitude * Real.sin r.azimut) +
      -0 / R * Real.cos r.latitude =
      -(Real.sin r.latitude *
        ((calculate_intersection r R).x * Real.cos r.azimut +
         (calculate_intersection r R).y * Real.sin r.azimut)) / R := by
    ring
  rw [hform, hdotval]
  apply div_neg_of_neg_of_pos _ hR
  have := mul_pos hsin hspos
  linarith

/-- C3 (amended): for a cylinder with positive core radius, positive equal
clad and core indices, and angle elimination enabled, an oblique ray
starting strictly inside the core whose first intersection does not
exceed the maximum length terminates with the critical-angle reason on
the very first reflection, with recorded count 2, for any reflection
budget of at least 2. -/
theorem equal_indices_first_reflection (f : Fiber_cylinder) (pa pl : ℕ → ℝ)
    (maxr : ℕ) (r : Ray)
    (hR : 0 < f.core_r) (hn : 0 < f.core_n) (heq : f.clad_n = f.core_n)
    (h0 : 0 < r.latitude) (h2 : r.latitude < π / 2)
    (hin : r.startpoint.x ^ 2 + r.startpoint.y ^ 2 < f.core_r ^ 2)
    (hzle : (calculate_intersection r f.core_r).z ≤ f.z_max)
    (hmax : 2 ≤ maxr) :
    (calculate_trajectory f r maxr true pa pl).reason = Reason.reflection_angle ∧
      (calculate_trajectory f r maxr true pa pl).count = 2 := by
  obtain ⟨k, hk⟩ : ∃ k, maxr - 1 = k + 1 := ⟨maxr - 2, by omega⟩
  unfold calculate_trajectory
  rw [hk]
  simp only [trajectoryLoop]
  rw [if_neg (not_lt.mpr hzle)]
  have hang : (calculate_reflection r (calculate_intersection r f.core_r)
      (find_normal (calculate_intersection r f.core_r))).2.2 =
      dot3 (find_normal (calculate_intersection r f.core_r))
        (rayVector r.azimut r.latitude) := rfl
  have hneg := incidence_dot_neg r f.core_r h0 h2 hR hin
  have hcond : True ∧
      π / 2 - |(calculate_reflection r (calculate_intersection r f.core_r)
        (find_normal (calculate_intersection r f.core_r))).2.2| <
      Real.arcsin (f.clad_n / f.core_n) := by
    refine ⟨trivial, ?_⟩
    rw [heq, div_self (ne_of_gt hn), Real.arcsin_one, hang]
    have habs : 0 < |dot3 (find_normal (calculate_intersection r f.core_r))
        (rayVector r.azimut r.latitude)| := abs_pos.mpr (ne_of_lt hneg)
    linarith
  rw [if_pos hcond]
  exact ⟨rfl, rfl⟩

/-- C3 counterexample: a cylinder with equal clad and core indices,
angle elimination enabled, and an oblique centered ray, whose first
intersection already exceeds the maximum length one half; the trajectory
stops with the maximum-length reason, not the critical-angle reason the
claim demands for every such geometry and ray. -/
theorem equal_indices_counterexample :
    (calculate_trajectory ⟨1, 1, 1, 1, 1 / 2, none⟩ ⟨0, π / 4, ⟨0, 0, 0⟩⟩ 5 true
        zeroPert zeroPert).reason ≠ Reason.reflection_angle := by
  have hz : (calculate_intersection ⟨0, π / 4, ⟨0, 0, 0⟩⟩
      (⟨1, 1, 1, 1, 1 / 2, none⟩ : Fiber_cylinder).core_r).z >
      (⟨1, 1, 1, 1, 1 / 2, none⟩ : Fiber_cylinder).z_max := by
    rw [show (⟨1, 1, 1, 1, 1 / 2, none⟩ : Fiber_cylinder).core_r = 1 from rfl,
      intersection_run_quarter_pi]
    norm_num
  have hrun := trajectoryLoop_zmax_step ⟨1, 1, 1, 1, 1 / 2, none⟩ true zeroPert zeroPert
    5 3 1 ⟨0, π / 4, ⟨0, 0, 0⟩⟩ (π / 4)
    (writeAt (fun _ => ⟨0, 0, 0⟩) 0 (⟨0, 0, 0⟩ : Vec3))
    (writeAt (fun _ => ⟨0, 0, 0⟩) 0 (⟨0, π / 4, 0⟩ : Vec3)) [0] hz
  have hcalc : calculate_trajectory ⟨1, 1, 1, 1, 1 / 2, none⟩ ⟨0, π / 4, ⟨0, 0, 0⟩⟩ 5 true
      zeroPert zeroPert =
      trajectoryLoop ⟨1, 1, 1, 1, 1 / 2, none⟩ true zeroPert zeroPert 5 (3 + 1) 1
        ⟨0, π / 4, ⟨0, 0, 0⟩⟩ (π / 4)
        (writeAt (fun _ => ⟨0, 0, 0⟩) 0 (⟨0, 0, 0⟩ : Vec3))
        (writeAt (fun _ => ⟨0, 0, 0⟩) 0 (⟨0, π / 4, 0⟩ : Vec3)) [0] := rfl
  rw [hcalc, hrun]
  intro hcontra
  exact Reason.noConfusion hcontra

theorem equal_indices_first_reflection_witness :
    (calculate_trajectory ⟨1, 1, 1, 1, 2, none⟩ ⟨0, π / 4, ⟨0, 0, 0⟩⟩ 2 true
        zeroPert zeroPert).reason = Reason.reflection_angle ∧
      (calculate_trajectory ⟨1, 1, 1, 1, 2, none⟩ ⟨0, π / 4, ⟨0, 0, 0⟩⟩ 2 true
        zeroPert zeroPert).count = 2 :=
  equal_indices_first_reflection ⟨1, 1, 1, 1, 2, none⟩ zeroPert zeroPert 2
    ⟨0, π / 4, ⟨0, 0, 0⟩⟩ (by norm_num) (by norm_num) rfl
    (by positivity) (by dsimp only; linarith [Real.pi_pos]) (by norm_num)
    (by rw [show (⟨1, 1, 1, 1, 2, none⟩ : Fiber_cylinder).core_r = 1 from rfl,
          intersection_run_quarter_pi]
        norm_num)
    (by norm_num)

/-- One unfolding of the trajectory loop for an axial ray (zenith zero):
the intersection is the sentinel point, reflection leaves the
direction axial with incidence zero, and, provided the sentinel is not
past the maximum length, diffusion is off and the critical-angle test
does not fire, the loop continues with the ray moved to the sentinel
point. -/
lemma trajectoryLoop_axial_step (f : Fiber_cylinder) (ae : Bool)
    (pa pl : ℕ → ℝ) (maxr fuel i : ℕ) (x y z refl : ℝ)
    (dots angles : ℕ → Vec3) (acc : List ℕ)
    (hz : ¬ ((-1 : ℝ) > f.z_max)) (hd : f.diffusion = none)
    (hang : ¬ (ae = true ∧ π / 2 - |(0 : ℝ)| < Real.arcsin (f.clad_n / f.core_n))) :
    trajectoryLoop f ae pa pl maxr (fuel + 1) i ⟨0, 0, ⟨x, y, z⟩⟩ refl dots angles acc =
      trajectoryLoop f ae pa pl maxr fuel (i + 1) ⟨0, 0, ⟨x, y, -1⟩⟩ 0
        (writeAt dots i ⟨x, y, -1⟩) (writeAt angles i ⟨0, 0, 0⟩) (i :: acc) := by
  have hP : calculate_intersection ⟨0, 0, ⟨x, y, z⟩⟩ f.core_r = ⟨x, y, -1⟩ := by
    unfold calculate_intersection
    rw [if_pos rfl]
  have hrefl : calculate_reflection ⟨0, 0, ⟨x, y, z⟩⟩ (⟨x, y, -1⟩ : Vec3)
      (find_normal ⟨x, y, -1⟩) = (0, 0, 0) := by
    unfold calculate_reflection reflected_vector rayVector find_normal dot3 smul3 add3
    dsimp only
    rw [Real.sin_zero, Real.cos_zero]
    norm_num
    unfold calculate_angles_from_vector
    dsimp only
    rw [Real.arccos_one, if_pos rfl]
    exact ⟨rfl, rfl⟩
  simp only [trajectoryLoop]
  rw [hP]
  rw [if_neg (by dsimp only; exact hz)]
  rw [hrefl, hd]
  simp only [diffusionTruthy, Bool.false_eq_true, if_false]
  rw [if_neg (by simpa using hang)]
  simp only [abs_zero]

/-- When the trajectory loop runs out of fuel without a terminal
transition, the count it returns is the full reflection budget. -/
lemma trajectoryLoop_budget_count (f : Fiber_cylinder) (ae : Bool)
    (pa pl : ℕ → ℝ) (maxr : ℕ) :
    ∀ (fuel i : ℕ) (r : Ray) (refl : ℝ) (dots angles : ℕ → Vec3) (acc : List ℕ),
      (trajectoryLoop f ae pa pl maxr fuel i r refl dots angles acc).reason =
          Reason.max_reflections →
      (trajectoryLoop f ae pa pl maxr fuel i r refl dots angles acc).count = maxr := by
  intro fuel
  induction fuel with
  | zero => intro i r refl dots angles acc _; rfl
  | succ n ih =>
    intro i r refl dots angles acc hreason
    simp only [trajectoryLoop] at hreason ⊢
    by_cases h1 : (calculate_intersection r f.core_r).z > f.z_max
    · rw [if_pos h1] at hreason
      exact absurd hreason (by simp)
    · rw [if_neg h1] at hreason ⊢
      by_cases h2 : (ae = true) ∧ π / 2 -
          |(calculate_reflection r (calculate_intersection r f.core_r)
            (find_normal (calculate_intersection r f.core_r))).2.2| <
          Real.arcsin (f.clad_n / f.core_n)
      · rw [if_pos h2] at hreason
        exact absurd hreason (by simp)
      · rw [if_neg h2] at hreason ⊢
        exact ih _ _ _ _ _ _ hreason

/-- C4: a trajectory call with reflection budget 5 in which neither the
maximum-length nor the critical-angle terminal transition fires returns
the budget-exhausted reason with recorded count exactly 5. -/
theorem budget_exhausted_count (f : Fiber_cylinder) (r : Ray) (ae : Bool)
    (pa pl : ℕ → ℝ)
    (h1 : (calculate_trajectory f r 5 ae pa pl).reason ≠ Reason.z_max)
    (h2 : (calculate_trajectory f r 5 ae pa pl).reason ≠ Reason.reflection_angle) :
    (calculate_trajectory f r 5 ae pa pl).reason = Reason.max_reflections ∧
      (calculate_trajectory f r 5 ae pa pl).count = 5 := by
  have hreason : (calculate_trajectory f r 5 ae pa pl).reason =
      Reason.max_reflections := by
    rcases hr : (calculate_trajectory f r 5 ae pa pl).reason with _ | _ | _
    · exact absurd hr h1
    · exact absurd hr h2
    · rfl
  refine ⟨hreason, ?_⟩
  exact trajectoryLoop_budget_count f ae pa pl 5 4 1 r r.latitude _ _ [0] hreason

theorem budget_exhausted_count_witness :
    (calculate_trajectory ⟨1, 1, 1, 0, 1, none⟩ ⟨0, 0, ⟨1 / 2, 0, 0⟩⟩ 5 false
        zeroPert zeroPert).reason = Reason.max_reflections ∧
      (calculate_trajectory ⟨1, 1, 1, 0, 1, none⟩ ⟨0, 0, ⟨1 / 2, 0, 0⟩⟩ 5 false
        zeroPert zeroPert).count = 5 := by
  have hz : ¬ ((-1 : ℝ) > (⟨1, 1, 1, 0, 1, none⟩ : Fiber_cylinder).z_max) := by
    norm_num
  have hd : (⟨1, 1, 1, 0, 1, none⟩ : Fiber_cylinder).diffusion = none := rfl
  have hang : ¬ ((false : Bool) = true ∧ π / 2 - |(0 : ℝ)| <
      Real.arcsin ((⟨1, 1, 1, 0, 1, none⟩ : Fiber_cylinder).clad_n /
        (⟨1, 1, 1, 0, 1, none⟩ : Fiber_cylinder).core_n)) := by simp
  have hres : (calculate_trajectory ⟨1, 1, 1, 0, 1, none⟩ ⟨0, 0, ⟨1 / 2, 0, 0⟩⟩ 5 false
      zeroPert zeroPert).reason = Reason.max_reflections := by
    show (trajectoryLoop ⟨1, 1, 1, 0, 1, none⟩ false zeroPert zeroPert 5 (3 + 1) 1
      ⟨0, 0, ⟨1 / 2, 0, 0⟩⟩ 0
      (writeAt (fun _ => ⟨0, 0, 0⟩) 0 (⟨1 / 2, 0, 0⟩ : Vec3))
      (writeAt (fun _ => ⟨0, 0, 0⟩) 0 (⟨0, 0, 0⟩ : Vec3)) [0]).reason =
      Reason.max_reflections
    rw [trajectoryLoop_axial_step _ _ _ _ _ 3 1 (1 / 2) 0 0 0 _ _ _ hz hd hang,
      trajectoryLoop_axial_step _ _ _ _ _ 2 2 (1 / 2) 0 (-1) 0 _ _ _ hz hd hang,
      trajectoryLoop_axial_step _ _ _ _ _ 1 3 (1 / 2) 0 (-1) 0 _ _ _ hz hd hang,
      trajectoryLoop_axial_step _ _ _ _ _ 0 4 (1 / 2) 0 (-1) 0 _ _ _ hz hd hang]
    rfl
  exact budget_exhausted_count ⟨1, 1, 1, 0, 1, none⟩ ⟨0, 0, ⟨1 / 2, 0, 0⟩⟩ false
    zeroPert zeroPert (by rw [hres]; decide) (by rw [hres]; decide)

/-- C5: evaluation of the trajectory at an axial ray (zenith zero) in a
fiber of maximum length 1: the sentinel axial value -1 never exceeds the
maximum length, so instead of the claimed immediate maximum-length
termination at the ray's own transverse coordinates and axial coordinate
1, the loop spins on the sentinel point until the reflection budget is
exhausted, recording points with axial coordinate -1 and returning the
budget-exhausted reason. -/
theorem axial_ray_budget_run :
    (calculate_trajectory ⟨1, 1, 1, 0, 1, none⟩ ⟨0, 0, ⟨3 / 4, 0, 0⟩⟩ 3 true
        zeroPert zeroPert).reason = Reason.max_reflections ∧
      (calculate_trajectory ⟨1, 1, 1, 0, 1, none⟩ ⟨0, 0, ⟨3 / 4, 0, 0⟩⟩ 3 true
        zeroPert zeroPert).count = 3 ∧
      (calculate_trajectory ⟨1, 1, 1, 0, 1, none⟩ ⟨0, 0, ⟨3 / 4, 0, 0⟩⟩ 3 true
        zeroPert zeroPert).dots 1 = ⟨3 / 4, 0, -1⟩ := by
  have hz : ¬ ((-1 : ℝ) > (⟨1, 1, 1, 0, 1, none⟩ : Fiber_cylinder).z_max) := by
    norm_num
  have hd : (⟨1, 1, 1, 0, 1, none⟩ : Fiber_cylinder).diffusion = none := rfl
  have hang : ¬ ((true : Bool) = true ∧ π / 2 - |(0 : ℝ)| <
      Real.arcsin ((⟨1, 1, 1, 0, 1, none⟩ : Fiber_cylinder).clad_n /
        (⟨1, 1, 1, 0, 1, none⟩ : Fiber_cylinder).core_n)) := by
    rintro ⟨-, hlt⟩
    rw [abs_zero, sub_zero] at hlt
    rw [show ((⟨1, 1, 1, 0, 1, none⟩ : Fiber_cylinder).clad_n /
      (⟨1, 1, 1, 0, 1, none⟩ : Fiber_cylinder).core_n) = 0 by norm_num,
      Real.arcsin_zero] at hlt
    linarith [Real.pi_pos]
  have hrun : calculate_trajectory ⟨1, 1, 1, 0, 1, none⟩ ⟨0, 0, ⟨3 / 4, 0, 0⟩⟩ 3 true
      zeroPert zeroPert =
      trajectoryLoop ⟨1, 1, 1, 0, 1, none⟩ true zeroPert zeroPert 3 0 3
        ⟨0, 0, ⟨3 / 4, 0, -1⟩⟩ 0
        (writeAt (writeAt (writeAt (fun _ => ⟨0, 0, 0⟩) 0 (⟨3 / 4, 0, 0⟩ : Vec3)) 1
          (⟨3 / 4, 0, -1⟩ : Vec3)) 2 (⟨3 / 4, 0, -1⟩ : Vec3))
        (writeAt (writeAt (writeAt (fun _ => ⟨0, 0, 0⟩) 0 (⟨0, 0, 0⟩ : Vec3)) 1
          (⟨0, 0, 0⟩ : Vec3)) 2 (⟨0, 0, 0⟩ : Vec3)) [2, 1, 0] := by
    show trajectoryLoop ⟨1, 1, 1, 0, 1, none⟩ true zeroPert zeroPert 3 (1 + 1) 1
      ⟨0, 0, ⟨3 / 4, 0, 0⟩⟩ 0
      (writeAt (fun _ => ⟨0, 0, 0⟩) 0 (⟨3 / 4, 0, 0⟩ : Vec3))
      (writeAt (fun _ => ⟨0, 0, 0⟩) 0 (⟨0, 0, 0⟩ : Vec3)) [0] = _
    rw [trajectoryLoop_axial_step _ _ _ _ _ 1 1 (3 / 4) 0 0 0 _ _ _ hz hd hang,
      trajectoryLoop_axial_step _ _ _ _ _ 0 2 (3 / 4) 0 (-1) 0 _ _ _ hz hd hang]
  rw [hrun]
  exact ⟨rfl, rfl, rfl⟩

/-- Every array index the trajectory loop writes stays below the
reflection budget, provided the indices already written do and the
current index plus the remaining fuel does not exceed the budget. -/
lemma trajectoryLoop_written_lt (f : Fiber_cylinder) (ae : Bool)
    (pa pl : ℕ → ℝ) (maxr : ℕ) :
    ∀ (fuel i : ℕ) (r : Ray) (refl : ℝ) (dots angles : ℕ → Vec3) (acc : List ℕ),
      (∀ j ∈ acc, j < maxr) → i + fuel ≤ maxr →
      ∀ j ∈ (trajectoryLoop f ae pa pl maxr fuel i r refl dots angles acc).written,
        j < maxr := by
  intro fuel
  induction fuel with
  | zero => intro i r refl dots angles acc hacc _ j hj; exact hacc j hj
  | succ n ih =>
    intro i r refl dots angles acc hacc hle j hj
    have hi : i < maxr := by omega
    have hcons : ∀ j ∈ i :: acc, j < maxr := by
      intro j hj
      rcases List.mem_cons.mp hj with h | h
      · omega
      · exact hacc j h
    simp only [trajectoryLoop] at hj
    by_cases h1 : (calculate_intersection r f.core_r).z > f.z_max
    · rw [if_pos h1] at hj
      exact hcons j hj
    · rw [if_neg h1] at hj
      by_cases h2 : (ae = true) ∧ π / 2 -
          |(calculate_reflection r (calculate_intersection r f.core_r)
            (find_normal (calculate_intersection r f.core_r))).2.2| <
          Real.arcsin (f.clad_n / f.core_n)
      · rw [if_pos h2] at hj
        exact hcons j hj
      · rw [if_neg h2] at hj
        exact ih _ _ _ _ _ _ hcons (by omega) j hj

/-- C10: with a reflection budget of at least 1, every index the
trajectory writes into the point and angle arrays lies strictly below the
budget; and the budget-zero trajectory still performs its unconditional
start-point write at index 0, an index that is out of bounds for the
zero-row arrays because no index is strictly below 0. -/
theorem trajectory_index_bounds (f : Fiber_cylinder) (ae : Bool)
    (pa pl : ℕ → ℝ) (r : Ray) (maxr j : ℕ)
    (hmax : 1 ≤ maxr)
    (hj : j ∈ (calculate_trajectory f r maxr ae pa pl).written) :
    j < maxr ∧ 0 ∈ (calculate_trajectory f r 0 ae pa pl).written ∧
      ¬ (0 < (0 : ℕ)) := by
  refine ⟨?_, ?_, by omega⟩
  · have hacc : ∀ k ∈ [0], k < maxr := by
      intro k hk
      rcases List.mem_singleton.mp hk with rfl
      omega
    exact trajectoryLoop_written_lt f ae pa pl maxr (maxr - 1) 1 r r.latitude
      _ _ [0] hacc (by omega) j hj
  · show 0 ∈ (trajectoryLoop f ae pa pl 0 0 1 r r.latitude
      (writeAt (fun _ => ⟨0, 0, 0⟩) 0 r.startpoint)
      (writeAt (fun _ => ⟨0, 0, 0⟩) 0 ⟨r.azimut, r.latitude, 0⟩) [0]).written
    simp only [trajectoryLoop]
    exact List.mem_singleton.mpr rfl

theorem trajectory_index_bounds_witness :
    (0 : ℕ) < 1 ∧
      0 ∈ (calculate_trajectory ⟨1, 1, 1, 1, 1, none⟩ ⟨0, 0, ⟨0, 0, 0⟩⟩ 0 false
        zeroPert zeroPert).written ∧
      ¬ (0 < (0 : ℕ)) :=
  trajectory_index_bounds ⟨1, 1, 1, 1, 1, none⟩ false zeroPert zeroPert
    ⟨0, 0, ⟨0, 0, 0⟩⟩ 1 0 (by omega)
    (by show (0 : ℕ) ∈ (trajectoryLoop ⟨1, 1, 1, 1, 1, none⟩ false zeroPert zeroPert
          1 0 1 ⟨0, 0, ⟨0, 0, 0⟩⟩ 0
          (writeAt (fun _ => ⟨0, 0, 0⟩) 0 (⟨0, 0, 0⟩ : Vec3))
          (writeAt (fun _ => ⟨0, 0, 0⟩) 0 (⟨0, 0, 0⟩ : Vec3)) [0]).written
        simp only [trajectoryLoop]
        exact List.mem_singleton.mpr rfl)
